import Mathlib

/-!
# VBoxTabs-Manager: Window Embedding & Lifecycle Manager

Shallow embedding of the core of `src/VBoxTabs-Manager.py`:
the Windows window manager (`WindowsWindowManager`), the per-tab handle
(`VBoxTab`) and the reconciliation engine (`VirtualBoxTabs`).

Conventions of the embedding:
* window handles (HWND) and process ids are `Nat`;
* window titles and process names are `List Char` (Python `str`);
* the mutable OS desktop is an explicit `OS` state threaded through every
  operation; a window is alive exactly when its handle is a key of
  `OS.windows`;
* Win32 style words are `Nat` viewed modulo `2^32`; the Python `~mask`
  (infinite-precision complement applied to a 32-bit style) is rendered as
  xor against the 32-bit all-ones word;
* calls that only repaint (`SetWindowPos` with
  `SWP_NOMOVE|SWP_NOSIZE|SWP_NOZORDER|SWP_FRAMECHANGED`, `MoveWindow`) have
  no observable effect in the model; `ShowWindow(SW_SHOW)` sets the
  `visible` flag;
* Qt plumbing (widgets, signals, dialogs, timers) is out of the model: a
  timer tick or button press is modelled as directly invoking the slot it
  is connected to, and the `QTimer.singleShot` deferred cleanup in
  `close_tab_by_index` is modelled as the cleanup being performed.
-/

namespace VBoxTabs

/-- Python substring test `needle in hay` on strings-as-char-lists
(`True` for the empty needle, contiguous substring otherwise). -/
def pyIn (needle : List Char) : List Char → Bool
  | [] => needle.isEmpty
  | c :: rest => needle.isPrefixOf (c :: rest) || pyIn needle rest

/-- Python `s.split(sep)[0]` for a non-empty separator: the characters of
`s` strictly before the first occurrence of `sep` (all of `s` when `sep`
does not occur). -/
def splitBefore (sep : List Char) : List Char → List Char
  | [] => []
  | c :: rest =>
    if sep.isPrefixOf (c :: rest) then [] else c :: splitBefore sep rest

/-- One native top-level window as the OS sees it (the fields of a window
that `WindowsWindowManager` reads or writes: `GetWindowText`,
`GetWindowLong(GWL_STYLE)`, `GetParent`, `IsWindowVisible`,
`GetWindowThreadProcessId`, `GetModuleFileNameEx`). -/
structure OSWindow where
  title : List Char
  style : Nat
  parent : Nat
  visible : Bool
  pid : Nat
  procName : List Char
  deriving Repr, DecidableEq

/-- The desktop: alive windows keyed by handle, plus the set of process
ids that `OpenProcess(PROCESS_TERMINATE)`/`TerminateProcess` would
succeed on (a pid outside it models "already exited, insufficient
privilege, or invalid pid"). -/
structure OS where
  windows : List (Nat × OSWindow)
  termProcs : List Nat
  deriving Repr, DecidableEq

/-- In-place update of the value stored under a key of an association
list (no-op on absent keys). -/
def updAssoc {β : Type} (l : List (Nat × β)) (h : Nat) (b : β) : List (Nat × β) :=
  l.map (fun e => if e.1 = h then (e.1, b) else e)

/-- Replace the record stored under handle `h` (no-op on absent keys),
the way `SetWindowLong`/`SetParent`/`ShowWindow` update one window. -/
def OS.setWin (os : OS) (h : Nat) (w : OSWindow) : OS :=
  { os with windows := updAssoc os.windows h w }

-- Style-bit constants of `WindowsWindowManager.__init__`.

def WS_CHILD : Nat := 0x40000000
def WS_CAPTION : Nat := 0x00C00000
def WS_THICKFRAME : Nat := 0x00040000
def WS_MINIMIZEBOX : Nat := 0x00020000
def WS_MAXIMIZEBOX : Nat := 0x00010000
def WS_SYSMENU : Nat := 0x00080000

/-- The bits stripped on attach and restored on detach. -/
def frameMask : Nat :=
  WS_CAPTION ||| WS_THICKFRAME ||| WS_MINIMIZEBOX ||| WS_MAXIMIZEBOX ||| WS_SYSMENU

/-- All-ones 32-bit word; xor against it is 32-bit complement. -/
def mask32 : Nat := 2 ^ 32 - 1

/-- `WindowsWindowManager.is_window`: `win32gui.IsWindow(hwnd)`. -/
def is_window (os : OS) (h : Nat) : Bool := (os.windows.lookup h).isSome

/-- The `original_details` dict returned by `set_window_parent` and
consumed by `restore_window_style`: `{'style': ..., 'parent': ...}`. -/
structure WinDetails where
  style : Nat
  parent : Nat
  deriving Repr, DecidableEq

/-- `WindowsWindowManager.set_window_parent(hwnd, parent_hwnd)`:
snapshot style and parent, strip the frame bits, set `WS_CHILD`,
reparent, repaint.  The Python body is only ever invoked on a live
window (`VBoxTab.attach_window` guards with `is_window`); on a dead
handle the Win32 calls fail silently, modelled as no state change. -/
def set_window_parent (os : OS) (hwnd parent_hwnd : Nat) : WinDetails × OS :=
  match os.windows.lookup hwnd with
  | some w =>
    ({ style := w.style, parent := w.parent },
      os.setWin hwnd
        { w with style := (w.style &&& (mask32 ^^^ frameMask)) ||| WS_CHILD,
                 parent := parent_hwnd })
  | none => ({ style := 0, parent := 0 }, os)

/-- `WindowsWindowManager.restore_window_style(hwnd, original_details)`:
early return if the window is gone; otherwise clear `WS_CHILD`, put back
exactly the saved frame bits, restore the original parent, repaint, and
`ShowWindow(SW_SHOW)`. -/
def restore_window_style (os : OS) (hwnd : Nat) (original_details : WinDetails) : OS :=
  match os.windows.lookup hwnd with
  | some w =>
    os.setWin hwnd
      { w with
        style := (w.style &&& (mask32 ^^^ WS_CHILD)) |||
          (original_details.style &&& frameMask),
        parent := original_details.parent, visible := true }
  | none => os

/-- `WindowsWindowManager.get_process_id(hwnd)`: the owning pid of a live
window, `None` otherwise. -/
def get_process_id (os : OS) (h : Nat) : Option Nat :=
  (os.windows.lookup h).map OSWindow.pid

/-- `WindowsWindowManager.terminate_process_by_id(pid)`: `True` and the
process's windows vanish when the open/terminate succeeds; `False` (never
an exception — the `try/except` swallows everything) otherwise. -/
def terminate_process_by_id (os : OS) (pid : Nat) : Bool × OS :=
  if pid ∈ os.termProcs then
    (true,
      { windows := os.windows.filter (fun e => e.2.pid ≠ pid),
        termProcs := os.termProcs.filter (· ≠ pid) })
  else (false, os)

/-- The `'type'` tag attached to each enumerated window
(`'VirtualBox'`, `'VirtualBox Manager'`, `'Hyper-V'`, `'Picked'`). -/
inductive WinType where
  | virtualBox
  | vboxManager
  | hyperV
  | picked
  deriving Repr, DecidableEq

/-- One entry of `found_windows`: `{'hwnd': ..., 'title': ..., 'type': ...}`. -/
structure FoundWindow where
  hwnd : Nat
  title : List Char
  wtype : WinType
  deriving Repr, DecidableEq

/-- `WindowsWindowManager._enum_windows_callback` on a single window:
skip invisible or untitled windows; a title containing `"[Running]"` or
`"[Работает]"` together with `" Oracle VirtualBox"` is a VM (title = part
before `" ["`); else a title containing `"Oracle VirtualBox "` is the
manager; else a `vmconnect.exe` process with an unparented window is
Hyper-V.  The `OpenProcess` probe is modelled as always answering (a probe
failure would merely drop the Hyper-V case). -/
def classifyWindow (h : Nat) (w : OSWindow) : Option FoundWindow :=
  if !w.visible then none
  else if w.title.isEmpty then none
  else if (pyIn "[Running]".toList w.title || pyIn "[Работает]".toList w.title) &&
      pyIn " Oracle VirtualBox".toList w.title then
    some { hwnd := h, title := splitBefore " [".toList w.title, wtype := .virtualBox }
  else if pyIn "Oracle VirtualBox ".toList w.title then
    some { hwnd := h, title := "VirtualBox Manager".toList, wtype := .vboxManager }
  else if pyIn "vmconnect.exe".toList (w.procName.map Char.toLower) && w.parent = 0 then
    some { hwnd := h, title := w.title, wtype := .hyperV }
  else none

/-- `WindowsWindowManager.find_embeddable_windows`: run the callback over
every desktop window (enumeration order = list order). -/
def find_embeddable_windows (os : OS) : List FoundWindow :=
  os.windows.filterMap (fun e => classifyWindow e.1 e.2)

/-- `VBoxTab`: the per-window handle.  The Python object stores the
`window_info` dict and hwnd plus the three mutable flags; the `container`
field is the opaque Qt id `int(self.container.winId())` the window is
reparented under.  The VBoxManage-derived `snapshot_name` decoration of
the tab caption is display-only and outside the model. -/
structure VBoxTab where
  hwnd : Nat
  title : List Char
  original_title : List Char
  display_title : List Char
  wtype : WinType
  container : Nat
  attached : Bool
  orig_win_details : Option WinDetails
  detached_manually : Bool
  deriving Repr, DecidableEq

/-- `VBoxTab.attach_window`: early return when already attached or the
window is gone; otherwise save the style snapshot from
`set_window_parent`, resize (no observable effect here), and flip the
flags. -/
def attach_window (t : VBoxTab) (os : OS) : VBoxTab × OS :=
  if t.attached || !is_window os t.hwnd then (t, os)
  else
    ({ t with
        orig_win_details := some (set_window_parent os t.hwnd t.container).1,
        attached := true, detached_manually := false },
      (set_window_parent os t.hwnd t.container).2)

/-- `VBoxTab.detach_window`: early return when not attached, no saved
details, or the window is gone; otherwise restore the saved style and
flip the flags (the saved details are *not* cleared). -/
def detach_window (t : VBoxTab) (os : OS) : VBoxTab × OS :=
  match t.orig_win_details with
  | none => (t, os)
  | some details =>
    if !t.attached || !is_window os t.hwnd then (t, os)
    else
      ({ t with attached := false, detached_manually := true },
        restore_window_style os t.hwnd details)

/-- The slice of the persisted settings dict that the reconciliation
logic reads (`auto_attach` defaults `True`, `attach_vbox_manager`
defaults `False`). -/
structure Settings where
  auto_attach : Bool
  attach_vbox_manager : Bool
  use_custom_names : Bool
  custom_names : List (List Char × List Char)
  deriving Repr, DecidableEq

/-- `VirtualBoxTabs`: the registry state.  `tabs` is the `self.tabs`
dict (unique keys, insertion-ordered, which is also the `tab_widget` page
order of the model), `manually_detached` is `self.manually_detached_windows`,
`custom_tab_names` is `self.custom_tab_names`. -/
structure AppState where
  tabs : List (Nat × VBoxTab)
  manually_detached : List Nat
  custom_tab_names : List (Nat × List Char)
  settings : Settings
  nextContainer : Nat
  os : OS
  deriving Repr, DecidableEq

/-- Dict update of an existing key (`self.tabs[hwnd]` is the very object
the attach/detach methods mutate in place). -/
def updateTab (tabs : List (Nat × VBoxTab)) (h : Nat) (t : VBoxTab) :
    List (Nat × VBoxTab) :=
  updAssoc tabs h t

/-- `VirtualBoxTabs.cleanup_closed_tab(hwnd)`: when tracked, drop the tab
from the registry and purge the handle from the manually-detached set and
the session rename map (all three removals are guarded by membership in
`self.tabs`, exactly as in the source). -/
def cleanup_closed_tab (st : AppState) (hwnd : Nat) : AppState :=
  if (st.tabs.lookup hwnd).isSome then
    { st with
      tabs := st.tabs.filter (fun e => e.1 ≠ hwnd),
      manually_detached := st.manually_detached.filter (· ≠ hwnd),
      custom_tab_names := st.custom_tab_names.filter (fun e => e.1 ≠ hwnd) }
  else st

/-- The window-title resolution at the top of `add_tab_for_window`: a
session rename (`self.custom_tab_names`) wins, else a persistent custom
name when enabled, else the enumerated title. -/
def resolveTitle (st : AppState) (w : FoundWindow) : List Char :=
  match st.custom_tab_names.lookup w.hwnd with
  | some n => n
  | none =>
    if st.settings.use_custom_names then
      match st.settings.custom_names.lookup w.title with
      | some n => n
      | none => w.title
    else w.title

/-- The per-category `auto_attach_enabled` computation of
`add_tab_for_window`. -/
def autoAttachEnabled (s : Settings) : WinType → Bool
  | .virtualBox => s.auto_attach
  | .vboxManager => s.attach_vbox_manager
  | _ => false

/-- The `display_title` truncation of `add_tab_for_window` (only
non-VirtualBox/non-manager titles longer than 20 characters). -/
def displayTitleFor (wt : WinType) (title : List Char) : List Char :=
  if (wt ≠ .virtualBox ∧ wt ≠ .vboxManager) ∧ title.length > 20 then
    title.take 20 ++ "...".toList
  else title

/-- The fresh `VBoxTab(window_info, ...)` object `add_tab_for_window`
constructs: detached, no saved details. -/
def freshTab (st : AppState) (w : FoundWindow) : VBoxTab :=
  { hwnd := w.hwnd, title := resolveTitle st w, original_title := w.title,
    display_title := displayTitleFor w.wtype (resolveTitle st w),
    wtype := w.wtype, container := st.nextContainer, attached := false,
    orig_win_details := none, detached_manually := false }

/-- Registry insertion `self.tabs[hwnd] = tab` plus `addTab` (the model
allocates the tab's hosting container id from `nextContainer`). -/
def addBase (st : AppState) (w : FoundWindow) : AppState :=
  { st with tabs := st.tabs ++ [(w.hwnd, freshTab st w)],
            nextContainer := st.nextContainer + 1 }

/-- `self.manually_detached_windows.remove(hwnd)` (as a filter). -/
def clearDetached (st : AppState) (h : Nat) : AppState :=
  { st with manually_detached := st.manually_detached.filter (· ≠ h) }

/-- `tab.attach_window()` on the tab tracked under `h`, with the updated
handle written back into the registry (the Python object is mutated in
place). -/
def attachInto (st : AppState) (h : Nat) (tab : VBoxTab) : AppState :=
  { st with tabs := updateTab st.tabs h (attach_window tab st.os).1,
            os := (attach_window tab st.os).2 }

/-- The `should_attach` decision of `add_tab_for_window`:
`force_attach or is_manual_attach_all or (auto_attach_enabled and not
was_manually_detached)`. -/
def shouldAttach (st : AppState) (w : FoundWindow)
    (force_attach is_manual_attach_all : Bool) : Bool :=
  force_attach || is_manual_attach_all ||
    (autoAttachEnabled st.settings w.wtype && !(decide (w.hwnd ∈ st.manually_detached)))

/-- `VirtualBoxTabs.add_tab_for_window(window_info, force_attach)` with
the trigger (`self.sender() == self.attach_all_button`) passed
explicitly.  Mirrors the source: bail out if already tracked; resolve
renames and the display title (inside `freshTab`); insert the fresh
(detached) tab; then, if `should_attach`, first drop the handle from the
manually-detached set (when it was there) and call `attach_window`. -/
def add_tab_for_window (st : AppState) (w : FoundWindow) (force_attach : Bool)
    (is_manual_attach_all : Bool) : AppState :=
  if (st.tabs.lookup w.hwnd).isSome then st
  else if shouldAttach st w force_attach is_manual_attach_all then
    attachInto
      (if w.hwnd ∈ st.manually_detached then clearDetached (addBase st w) w.hwnd
       else addBase st w)
      w.hwnd (freshTab st w)
  else addBase st w

/-- The garbage-collection loop of `refresh_tabs`: iterate over a
snapshot of `self.tabs.items()` and clean up every tracked handle that is
neither enumerated nor alive. -/
def gcLoop (current_hwnds : List Nat) : List (Nat × VBoxTab) → AppState → AppState
  | [], st => st
  | (hwnd, _) :: rest, st =>
    gcLoop current_hwnds rest
      (if hwnd ∉ current_hwnds && !is_window st.os hwnd then
        cleanup_closed_tab st hwnd
      else st)

/-- The forced-reattach step of the additions loop on an already-tracked
handle: `tab = self.tabs[hwnd]; if not tab.attached: tab.attach_window()`. -/
def forceReattach (st : AppState) (h : Nat) : AppState :=
  match st.tabs.lookup h with
  | some tab => if !tab.attached then attachInto st h tab else st
  | none => st

/-- One iteration of the additions loop of `refresh_tabs` for a single
enumerated window. -/
def processFound (st : AppState) (w : FoundWindow) (is_attach_all : Bool) : AppState :=
  if (st.tabs.lookup w.hwnd).isSome then
    if is_attach_all && decide (w.hwnd ∈ st.manually_detached) then
      forceReattach (clearDetached st w.hwnd) w.hwnd
    else st
  else if decide (w.hwnd ∈ st.manually_detached) && !is_attach_all then st
  else if decide (w.wtype = .vboxManager) && !st.settings.attach_vbox_manager &&
      !is_attach_all then st
  else add_tab_for_window st w is_attach_all is_attach_all

/-- The additions loop of `refresh_tabs` over the enumeration result. -/
def addLoop (is_attach_all : Bool) : List FoundWindow → AppState → AppState
  | [], st => st
  | w :: rest, st => addLoop is_attach_all rest (processFound st w is_attach_all)

/-- `VirtualBoxTabs.refresh_tabs` with the trigger passed explicitly:
enumerate, garbage-collect handles that are dead and not enumerated,
then walk the enumeration doing forced re-attach / suppression /
addition. -/
def refresh_tabs (st : AppState) (is_attach_all : Bool) : AppState :=
  addLoop is_attach_all (find_embeddable_windows st.os)
    (gcLoop ((find_embeddable_windows st.os).map FoundWindow.hwnd) st.tabs st)

/-- `VirtualBoxTabs.detach_tab(index)`: detach the window, remember the
handle in the manually-detached set, and drop the tab page and registry
entry. -/
def detach_tab (st : AppState) (index : Nat) : AppState :=
  match st.tabs.get? index with
  | none => st
  | some e =>
    { st with
      tabs := (updateTab st.tabs e.2.hwnd (detach_window e.2 st.os).1).filter
        (fun x => x.1 ≠ e.2.hwnd),
      os := (detach_window e.2 st.os).2,
      manually_detached := st.manually_detached ++ [e.2.hwnd] }

/-- `VirtualBoxTabs.close_tab_by_index(index)`: look up the owning pid;
`if pid and terminate_process_by_id(pid)` — on a truthy pid attempt the
kill (success defers the cleanup 200ms, modelled as performed) — and in
every branch finish with `cleanup_closed_tab(hwnd)`. -/
def close_tab_by_index (st : AppState) (index : Nat) : AppState :=
  match st.tabs.get? index with
  | none => st
  | some e =>
    cleanup_closed_tab
      { st with os :=
          match get_process_id st.os e.2.hwnd with
          | some pid =>
            if pid ≠ 0 then (terminate_process_by_id st.os pid).2 else st.os
          | none => st.os }
      e.2.hwnd

/-- The detach sweep of `VirtualBoxTabs.closeEvent`:
`for tab in self.tabs.values(): tab.detach_window()`. -/
def detachAll : List (Nat × VBoxTab) → OS → List (Nat × VBoxTab) × OS
  | [], os => ([], os)
  | e :: rest, os =>
    ((e.1, (detach_window e.2 os).1) ::
        (detachAll rest (detach_window e.2 os).2).1,
      (detachAll rest (detach_window e.2 os).2).2)

/-- `VirtualBoxTabs.closeEvent`: unconditionally detach every tracked
tab (settings persistence is out of the model). -/
def closeEvent (st : AppState) : AppState :=
  { st with tabs := (detachAll st.tabs st.os).1, os := (detachAll st.tabs st.os).2 }

/-- The user-visible and environment-driven events that mutate the
registry: a reconciliation pass (timer tick, Refresh button, or the
Attach-all button), a user detach (`detach_tab`), a user close
(`close_tab_by_index`), a forced add (window picker `_on_picker_tick`
and the process-list dialog, both `force_attach=True` with a sender that
is not the attach-all button), the shutdown sweep (`closeEvent`), and an
arbitrary change to the desktop by the foreign processes. -/
inductive Op where
  | refresh (isAttachAll : Bool)
  | detachTab (index : Nat)
  | closeTab (index : Nat)
  | addForced (w : FoundWindow)
  | appClose
  | env (os : OS)
  deriving Repr, DecidableEq

def execOp (st : AppState) : Op → AppState
  | .refresh b => refresh_tabs st b
  | .detachTab i => detach_tab st i
  | .closeTab i => close_tab_by_index st i
  | .addForced w => add_tab_for_window st w true false
  | .appClose => closeEvent st
  | .env os => { st with os := os }

def execOps (st : AppState) : List Op → AppState
  | [] => st
  | op :: rest => execOps (execOp st op) rest

/-- `VirtualBoxTabs.__init__`: empty registry and sets, then an initial
`refresh_tabs()` (automatic trigger). -/
def initState (settings : Settings) (os : OS) : AppState :=
  refresh_tabs
    { tabs := [], manually_detached := [], custom_tab_names := [],
      settings := settings, nextContainer := 0, os := os } false

/-! ## Association-list helper lemmas -/

theorem lookup_cons {β : Type} (k : Nat) (v : β) (rest : List (Nat × β)) (h : Nat) :
    List.lookup h ((k, v) :: rest) = if h = k then some v else List.lookup h rest := by
  by_cases hk : h = k
  · simp [List.lookup, hk]
  · have hb : (h == k) = false := by simp [hk]
    simp [List.lookup, hb, hk]

theorem updAssoc_cons {β : Type} (k : Nat) (v : β) (rest : List (Nat × β))
    (h : Nat) (b : β) :
    updAssoc ((k, v) :: rest) h b =
      (if k = h then (k, b) else (k, v)) :: updAssoc rest h b := rfl

theorem lookup_updAssoc_self {β : Type} (l : List (Nat × β)) (h : Nat) (b : β)
    (hs : (l.lookup h).isSome) : (updAssoc l h b).lookup h = some b := by
  induction l with
  | nil => simp [List.lookup] at hs
  | cons e rest ih =>
    obtain ⟨k, v⟩ := e
    by_cases hk : k = h
    · simp [updAssoc_cons, hk, lookup_cons]
    · have hk' : ¬ h = k := fun hh => hk hh.symm
      rw [lookup_cons] at hs
      rw [updAssoc_cons, if_neg hk, lookup_cons, if_neg hk']
      rw [if_neg hk'] at hs
      exact ih hs

theorem lookup_updAssoc_ne {β : Type} (l : List (Nat × β)) (h h' : Nat) (b : β)
    (hne : h' ≠ h) : (updAssoc l h b).lookup h' = l.lookup h' := by
  induction l with
  | nil => simp [updAssoc]
  | cons e rest ih =>
    obtain ⟨k, v⟩ := e
    by_cases hk : k = h
    · have hk' : ¬ h' = k := fun hh => hne (hh.trans hk)
      rw [updAssoc_cons, if_pos hk, lookup_cons, if_neg hk', lookup_cons, if_neg hk']
      exact ih
    · rw [updAssoc_cons, if_neg hk, lookup_cons, lookup_cons]
      by_cases hk' : h' = k
      · simp [hk']
      · rw [if_neg hk', if_neg hk']
        exact ih

theorem lookup_updAssoc_isSome {β : Type} (l : List (Nat × β)) (h h' : Nat) (b : β) :
    ((updAssoc l h b).lookup h').isSome = (l.lookup h').isSome := by
  by_cases hne : h' = h
  · subst hne
    cases hs : l.lookup h' with
    | none =>
      simp only [Option.isSome_none]
      cases hs' : (updAssoc l h' b).lookup h' with
      | none => simp
      | some w =>
        exfalso
        induction l with
        | nil => simp [updAssoc, List.lookup] at hs'
        | cons e rest ih =>
          obtain ⟨k, v⟩ := e
          by_cases hk : k = h'
          · rw [lookup_cons, if_pos hk.symm] at hs; exact Option.noConfusion hs
          · have hk' : ¬ h' = k := fun hh => hk hh.symm
            rw [lookup_cons, if_neg hk'] at hs
            rw [updAssoc_cons, if_neg hk, lookup_cons, if_neg hk'] at hs'
            exact ih hs hs'
    | some w => simp [lookup_updAssoc_self l h' b (by simp [hs]), hs]
  · rw [lookup_updAssoc_ne l h h' b hne]

/-- A key absent from an association list (no entry carries it). -/
def keyFree {β : Type} (l : List (Nat × β)) (h : Nat) : Prop :=
  ∀ e ∈ l, e.1 ≠ h

theorem lookup_eq_none_of_keyFree {β : Type} {l : List (Nat × β)} {h : Nat}
    (hf : keyFree l h) : l.lookup h = none := by
  induction l with
  | nil => simp
  | cons e rest ih =>
    obtain ⟨k, v⟩ := e
    have h1 : k ≠ h := hf (k, v) (by simp)
    rw [lookup_cons, if_neg (fun hh => h1 hh.symm)]
    exact ih fun e' he' => hf e' (by simp [he'])

theorem mem_of_lookup {β : Type} {l : List (Nat × β)} {h : Nat} {b : β}
    (hl : l.lookup h = some b) : (h, b) ∈ l := by
  induction l with
  | nil => simp at hl
  | cons e rest ih =>
    obtain ⟨k, v⟩ := e
    rw [lookup_cons] at hl
    by_cases hk : h = k
    · rw [if_pos hk] at hl
      have hv : v = b := by injection hl
      subst hv
      subst hk
      simp
    · rw [if_neg hk] at hl
      simp [ih hl]

theorem keyFree_of_lookup_eq_none {β : Type} {l : List (Nat × β)} {h : Nat}
    (hn : l.lookup h = none) : keyFree l h := by
  induction l with
  | nil => intro e he; simp at he
  | cons e rest ih =>
    obtain ⟨k, v⟩ := e
    rw [lookup_cons] at hn
    by_cases hk : h = k
    · rw [if_pos hk] at hn; exact Option.noConfusion hn
    · rw [if_neg hk] at hn
      intro e' he'
      rcases List.mem_cons.mp he' with he' | he'
      · subst he'; exact fun hh => hk hh.symm
      · exact ih hn e' he'

theorem lookup_append_none {β : Type} {l : List (Nat × β)} (l2 : List (Nat × β))
    {h : Nat} (hn : l.lookup h = none) : (l ++ l2).lookup h = l2.lookup h := by
  induction l with
  | nil => simp
  | cons e rest ih =>
    obtain ⟨k, v⟩ := e
    rw [lookup_cons] at hn
    by_cases hk : h = k
    · rw [if_pos hk] at hn; exact Option.noConfusion hn
    · rw [if_neg hk] at hn
      rw [List.cons_append, lookup_cons, if_neg hk]
      exact ih hn

theorem lookup_append_some {β : Type} {l : List (Nat × β)} (l2 : List (Nat × β))
    {h : Nat} {b : β} (hs : l.lookup h = some b) : (l ++ l2).lookup h = some b := by
  induction l with
  | nil => simp at hs
  | cons e rest ih =>
    obtain ⟨k, v⟩ := e
    rw [lookup_cons] at hs
    rw [List.cons_append, lookup_cons]
    by_cases hk : h = k
    · rwa [if_pos hk] at hs ⊢
    · rw [if_neg hk] at hs ⊢
      exact ih hs

theorem lookup_filter_key_ne {β : Type} (l : List (Nat × β)) (k : Nat) :
    (l.filter (fun e => e.1 ≠ k)).lookup k = none := by
  apply lookup_eq_none_of_keyFree
  intro e he
  have := (List.mem_filter.mp he).2
  simpa using this

theorem lookup_none_filter {β : Type} {l : List (Nat × β)} {h : Nat}
    (q : Nat × β → Bool) (hn : l.lookup h = none) :
    (l.filter q).lookup h = none := by
  apply lookup_eq_none_of_keyFree
  intro e he
  exact keyFree_of_lookup_eq_none hn e (List.mem_filter.mp he).1

theorem lookup_isSome_filter_key {β : Type} {l : List (Nat × β)} {h k : Nat}
    (hk : h ≠ k) (hs : (l.lookup h).isSome) :
    ((l.filter (fun e => e.1 ≠ k)).lookup h).isSome := by
  cases hl : l.lookup h with
  | none => rw [hl] at hs; exact Bool.noConfusion hs
  | some b =>
    have hm : (h, b) ∈ l := mem_of_lookup hl
    have hmf : (h, b) ∈ l.filter (fun e => e.1 ≠ k) :=
      List.mem_filter.mpr ⟨hm, by simpa using hk⟩
    cases hlf : (l.filter (fun e => e.1 ≠ k)).lookup h with
    | none => exact absurd hmf (by
        intro hc
        exact keyFree_of_lookup_eq_none hlf (h, b) hc rfl)
    | some c => rfl

theorem mem_filter_ne_of_mem {h k : Nat} {l : List Nat} (hm : h ∈ l) (hk : h ≠ k) :
    h ∈ l.filter (· ≠ k) :=
  List.mem_filter.mpr ⟨hm, by simpa using hk⟩

theorem not_mem_filter_of_not_mem {h : Nat} {l : List Nat} (q : Nat → Bool)
    (hm : h ∉ l) : h ∉ l.filter q :=
  fun hc => hm (List.mem_filter.mp hc).1

/-! ## Liveness is untouched by style mutation

`set_window_parent` and `restore_window_style` rewrite fields of existing
windows; they never create or destroy a window, so `is_window` is
invariant under them (and hence under `attach_window` / `detach_window`). -/

theorem is_window_setWin (os : OS) (h : Nat) (w : OSWindow) (h' : Nat) :
    is_window (os.setWin h w) h' = is_window os h' := by
  simp [is_window, OS.setWin, lookup_updAssoc_isSome]

theorem is_window_set_window_parent (os : OS) (hwnd p h' : Nat) :
    is_window (set_window_parent os hwnd p).2 h' = is_window os h' := by
  unfold set_window_parent
  cases hl : os.windows.lookup hwnd with
  | none => simp
  | some w => simp [is_window_setWin]

theorem is_window_restore (os : OS) (hwnd : Nat) (d : WinDetails) (h' : Nat) :
    is_window (restore_window_style os hwnd d) h' = is_window os h' := by
  unfold restore_window_style
  cases hl : os.windows.lookup hwnd with
  | none => simp
  | some w => simp [is_window_setWin]

theorem is_window_attach (t : VBoxTab) (os : OS) (h' : Nat) :
    is_window (attach_window t os).2 h' = is_window os h' := by
  unfold attach_window
  by_cases hg : (t.attached || !is_window os t.hwnd) = true
  · simp [hg]
  · simp only [hg, Bool.false_eq_true, if_false]
    simp [is_window_set_window_parent]

theorem is_window_detach (t : VBoxTab) (os : OS) (h' : Nat) :
    is_window (detach_window t os).2 h' = is_window os h' := by
  unfold detach_window
  cases t.orig_win_details with
  | none => simp
  | some d =>
    by_cases hg : (!t.attached || !is_window os t.hwnd) = true
    · simp [hg]
    · simp only [hg, Bool.false_eq_true, if_false]
      simp [is_window_restore]

/-! ## The style round-trip (claim C2) -/

/-- The style word really restored by detach after an attach, computed
bit by bit: stripping the frame bits and setting `WS_CHILD`, then
clearing `WS_CHILD` and putting the saved frame bits back, recovers the
original 32-bit style word provided its `WS_CHILD` bit was clear. -/
theorem roundtrip_style (s : Nat) (hlt : s < 2 ^ 32) (hchild : s &&& WS_CHILD = 0) :
    ((((s &&& (mask32 ^^^ frameMask)) ||| WS_CHILD) &&& (mask32 ^^^ WS_CHILD)) |||
      (s &&& frameMask)) = s := by
  have hC : WS_CHILD = 2 ^ 30 := by norm_num [WS_CHILD]
  have hM : mask32 = 2 ^ 32 - 1 := by norm_num [mask32]
  have hsbit30 : s.testBit 30 = false := by
    have h0 : (s &&& WS_CHILD).testBit 30 = false := by
      rw [hchild]; simp
    rw [Nat.testBit_land, hC, Nat.testBit_two_pow] at h0
    simpa using h0
  apply Nat.eq_of_testBit_eq
  intro i
  rw [hM, hC]
  simp only [Nat.testBit_lor, Nat.testBit_land, Nat.testBit_xor,
    Nat.testBit_two_pow_sub_one, Nat.testBit_two_pow]
  by_cases h32 : i < 32
  · by_cases h30 : i = 30
    · subst h30
      simp [hsbit30]
    · have hd : (decide (30 = i)) = false := by
        simp only [decide_eq_false_iff_not]
        exact fun hh => h30 hh.symm
      simp only [hd, decide_eq_true h32]
      cases hs : s.testBit i <;> cases hf : Nat.testBit frameMask i <;> simp
  · have h2i : (2 : Nat) ^ 32 ≤ 2 ^ i :=
      Nat.pow_le_pow_right (by norm_num) (Nat.le_of_not_lt h32)
    have hsi : s.testBit i = false :=
      Nat.testBit_lt_two_pow (lt_of_lt_of_le hlt h2i)
    have hfm : frameMask < 2 ^ 32 := by decide
    have hfi : Nat.testBit frameMask i = false :=
      Nat.testBit_lt_two_pow (lt_of_lt_of_le hfm h2i)
    have hd : (decide (30 = i)) = false := by
      simp only [decide_eq_false_iff_not]
      omega
    simp [h32, hsi, hfi, hd]

/-- C2 (amended): on a live window whose 32-bit style word has the
`WS_CHILD` bit clear, `set_window_parent` followed by
`restore_window_style` with the returned details (and no interference in
between) brings the style word and the parent back bit-for-bit to the
pre-attach snapshot. -/
theorem lookup_setWin_self (os : OS) (h : Nat) (w : OSWindow)
    (hs : (os.windows.lookup h).isSome) :
    (os.setWin h w).windows.lookup h = some w :=
  lookup_updAssoc_self os.windows h w hs

theorem attach_detach_roundtrip (os : OS) (h host : Nat) (w : OSWindow)
    (hw : os.windows.lookup h = some w) (hlt : w.style < 2 ^ 32)
    (hchild : w.style &&& WS_CHILD = 0) :
    ((restore_window_style (set_window_parent os h host).2 h
        (set_window_parent os h host).1).windows.lookup h).map
      (fun w' => (w'.style, w'.parent)) = some (w.style, w.parent) := by
  have hsome : (os.windows.lookup h).isSome := by rw [hw]; rfl
  unfold set_window_parent
  rw [hw]
  simp only
  have hl1 :
      (os.setWin h
          { w with style := (w.style &&& (mask32 ^^^ frameMask)) ||| WS_CHILD,
                   parent := host }).windows.lookup h =
        some { w with style := (w.style &&& (mask32 ^^^ frameMask)) ||| WS_CHILD,
                      parent := host } :=
    lookup_setWin_self os h _ hsome
  unfold restore_window_style
  rw [hl1]
  simp only
  rw [lookup_setWin_self _ h _ (by rw [hl1]; rfl)]
  simp only [Option.map_some', Option.some.injEq, Prod.mk.injEq]
  exact ⟨roundtrip_style w.style hlt hchild, trivial⟩

/-! ## Concrete inputs used by witnesses and counterexamples -/

/-- A live VirtualBox VM console window with an ordinary overlapped
style word (`WS_CAPTION|WS_THICKFRAME|WS_MINIMIZEBOX|WS_MAXIMIZEBOX|WS_SYSMENU`). -/
def winLive : OSWindow :=
  { title := "VM-A [Running] - Oracle VirtualBox".toList, style := 0x00CF0000,
    parent := 0, visible := true, pid := 42, procName := "VirtualBoxVM.exe".toList }

/-- A desktop carrying just `winLive` under handle 1, whose process can
be terminated. -/
def osOne : OS := { windows := [(1, winLive)], termProcs := [42] }

/-- An empty desktop: every handle is stale. -/
def osEmpty : OS := { windows := [], termProcs := [] }

/-- The settings defaults that matter to reconciliation
(`auto_attach=True`, `attach_vbox_manager=False`). -/
def defaultSettings : Settings :=
  { auto_attach := true, attach_vbox_manager := false,
    use_custom_names := false, custom_names := [] }

/-- A freshly created, detached tab for handle 1. -/
def tabDet : VBoxTab :=
  { hwnd := 1, title := "VM-A".toList, original_title := "VM-A".toList,
    display_title := "VM-A".toList, wtype := .virtualBox, container := 0,
    attached := false, orig_win_details := none, detached_manually := false }

/-- The tab the initial reconciliation pass creates for `winLive`. -/
def tabAtt1 : VBoxTab :=
  { hwnd := 1, title := "VM-A".toList, original_title := "VM-A".toList,
    display_title := "VM-A".toList, wtype := .virtualBox, container := 0,
    attached := true, orig_win_details := some { style := 0x00CF0000, parent := 0 },
    detached_manually := false }

/-- A tab still flagged attached whose native window (handle 3) is gone. -/
def tabDeadAtt : VBoxTab :=
  { hwnd := 3, title := "VM-B".toList, original_title := "VM-B".toList,
    display_title := "VM-B".toList, wtype := .virtualBox, container := 0,
    attached := true, orig_win_details := some { style := 0x00CF0000, parent := 0 },
    detached_manually := false }

/-- A registry tracking only the dead-window tab `tabDeadAtt`. -/
def stDead : AppState :=
  { tabs := [(3, tabDeadAtt)], manually_detached := [], custom_tab_names := [],
    settings := defaultSettings, nextContainer := 1, os := osEmpty }

/-- A window whose own style word already has `WS_CHILD` set. -/
def winChild : OSWindow :=
  { title := "W".toList, style := 0x40000000, parent := 0, visible := true,
    pid := 7, procName := "x.exe".toList }

/-- A desktop carrying just `winChild` under handle 2. -/
def osChild : OS := { windows := [(2, winChild)], termProcs := [] }

/-- C2 counterexample: on a live window whose original style word has the
`WS_CHILD` bit set, attach followed by detach with the returned details
does **not** restore the style word bit-for-bit (the `WS_CHILD` bit is
unconditionally cleared by `restore_window_style`). -/
theorem attach_detach_roundtrip_cex :
    ((restore_window_style (set_window_parent osChild 2 9).2 2
        (set_window_parent osChild 2 9).1).windows.lookup 2).map
      (fun w' => (w'.style, w'.parent)) ≠ some (winChild.style, winChild.parent) := by
  decide

/-- C2 witness: the round-trip theorem applied to the live window
`winLive` (style `0x00CF0000`, `WS_CHILD` clear). -/
theorem attach_detach_roundtrip_witness :
    osOne.windows.lookup 1 = some winLive ∧ winLive.style < 2 ^ 32 ∧
    winLive.style &&& WS_CHILD = 0 ∧
    ((restore_window_style (set_window_parent osOne 1 5).2 1
        (set_window_parent osOne 1 5).1).windows.lookup 1).map
      (fun w' => (w'.style, w'.parent)) = some (winLive.style, winLive.parent) :=
  ⟨rfl, by decide, by decide,
    attach_detach_roundtrip osOne 1 5 winLive rfl (by decide) (by decide)⟩

/-! ## Detach is idempotent (claim C6) -/

/-- `VBoxTab.detach_window` on a handle that is not attached is a
no-op. -/
theorem detach_window_noop (t : VBoxTab) (os : OS) (h : t.attached = false) :
    detach_window t os = (t, os) := by
  unfold detach_window
  cases t.orig_win_details with
  | none => rfl
  | some d => simp [h]

/-- `detach_window` either does nothing or leaves the handle with
`attached = False`. -/
theorem detach_window_cases (t : VBoxTab) (os : OS) :
    detach_window t os = (t, os) ∨ (detach_window t os).1.attached = false := by
  unfold detach_window
  cases t.orig_win_details with
  | none => left; rfl
  | some d =>
    by_cases hg : (!t.attached || !is_window os t.hwnd) = true
    · left; simp [hg]
    · right; simp [hg]

/-- C6: calling `detach_window` twice in succession produces the same
observable state (tab fields and native style/parent) as calling it
once, and detach on an already-detached handle is a no-op. -/
theorem detach_idempotent (t : VBoxTab) (os : OS) :
    detach_window (detach_window t os).1 (detach_window t os).2 =
      detach_window t os ∧
    (t.attached = false → detach_window t os = (t, os)) := by
  refine ⟨?_, detach_window_noop t os⟩
  rcases detach_window_cases t os with h | h
  · rw [h]
    exact h
  · rw [detach_window_noop _ _ h]

/-- C6 witness: both conjuncts evaluated on the detached tab `tabDet`. -/
theorem detach_idempotent_witness :
    detach_window (detach_window tabDet osOne).1 (detach_window tabDet osOne).2 =
      detach_window tabDet osOne ∧
    detach_window tabDet osOne = (tabDet, osOne) :=
  ⟨(detach_idempotent tabDet osOne).1, (detach_idempotent tabDet osOne).2 rfl⟩

/-! ## Attach on a stale window (claim C9) -/

/-- C9: when `is_window` is false at the time of the call,
`attach_window` is a complete no-op — no style change, no reparent, no
saved style captured, and the handle stays detached. -/
theorem attach_stale_noop (t : VBoxTab) (os : OS)
    (hdead : is_window os t.hwnd = false) : attach_window t os = (t, os) := by
  unfold attach_window
  simp [hdead]

/-- C9 witness: attaching `tabDet` on the empty desktop changes
nothing. -/
theorem attach_stale_noop_witness :
    is_window osEmpty tabDet.hwnd = false ∧
    attach_window tabDet osEmpty = (tabDet, osEmpty) :=
  ⟨rfl, attach_stale_noop tabDet osEmpty rfl⟩

/-! ## Detach of a dead attached window (claim C10) -/

/-- `detach_window` on an attached handle whose window died is a
complete no-op: `attached` stays `True` and the saved details stay. -/
theorem detach_dead_noop (t : VBoxTab) (os : OS) (hatt : t.attached = true)
    (hdead : is_window os t.hwnd = false) : detach_window t os = (t, os) := by
  unfold detach_window
  cases t.orig_win_details with
  | none => rfl
  | some d => simp [hatt, hdead]

/-- The `closeEvent` sweep maps each tab through `detach_window` while
threading the desktop; style restores never resurrect a window, so a
handle dead at the start stays dead at each step. -/
theorem detachAll_dead_attached (l : List (Nat × VBoxTab)) (os : OS) (h : Nat)
    (t : VBoxTab) (hl : l.lookup h = some t) (hh : t.hwnd = h)
    (hatt : t.attached = true) (hdead : is_window os h = false) :
    (detachAll l os).1.lookup h = some t := by
  induction l generalizing os with
  | nil => simp at hl
  | cons e rest ih =>
    obtain ⟨k, v⟩ := e
    rw [lookup_cons] at hl
    by_cases hk : h = k
    · rw [if_pos hk] at hl
      have hv : v = t := by injection hl
      subst hv
      have hstep : detach_window v os = (v, os) :=
        detach_dead_noop v os hatt (by rw [hh]; exact hdead)
      simp only [detachAll, hstep]
      rw [lookup_cons, if_pos hk]
    · rw [if_neg hk] at hl
      simp only [detachAll]
      rw [lookup_cons, if_neg hk]
      exact ih (detach_window v os).2 hl
        (by rw [is_window_detach]; exact hdead)

/-- C10: if the native window dies while its handle is `Attached`, a
subsequent `detach_window` is a complete no-op (restores nothing, clears
nothing, leaves `attached = True`), and the unconditional detach sweep of
`closeEvent` leaves such a handle in the registry still flagged
attached. -/
theorem detach_dead_attached_persists (st : AppState) (h : Nat) (t : VBoxTab)
    (hl : st.tabs.lookup h = some t) (hh : t.hwnd = h)
    (hatt : t.attached = true) (hdead : is_window st.os h = false) :
    detach_window t st.os = (t, st.os) ∧
    (closeEvent st).tabs.lookup h = some t ∧ t.attached = true := by
  refine ⟨detach_dead_noop t st.os hatt (by rw [hh]; exact hdead), ?_, hatt⟩
  unfold closeEvent
  simp only
  exact detachAll_dead_attached st.tabs st.os h t hl hh hatt hdead

/-- C10 witness: the dead-window registry `stDead` keeps `tabDeadAtt`
attached through `closeEvent`. -/
theorem detach_dead_attached_persists_witness :
    detach_window tabDeadAtt stDead.os = (tabDeadAtt, stDead.os) ∧
    (closeEvent stDead).tabs.lookup 3 = some tabDeadAtt ∧
    tabDeadAtt.attached = true :=
  detach_dead_attached_persists stDead 3 tabDeadAtt rfl rfl rfl rfl

/-! ## The attach-state/saved-style invariant (claim C1)

Only the forward half of the spec's biconditional holds: an attached
handle always carries saved details, but `detach_window` does not clear
`orig_win_details`, so a detached handle may retain them. -/

/-- An attached handle carries its saved restorable details. -/
def TabOk (t : VBoxTab) : Prop := t.attached = true → t.orig_win_details.isSome = true

/-- Every tab of the registry satisfies `TabOk`. -/
def RegOk (st : AppState) : Prop := ∀ e ∈ st.tabs, TabOk e.2

theorem tabOk_of_detached {t : VBoxTab} (h : t.attached = false) : TabOk t := by
  intro hc
  rw [h] at hc
  exact Bool.noConfusion hc

theorem tabOk_attach (t : VBoxTab) (os : OS) (h : TabOk t) :
    TabOk (attach_window t os).1 := by
  unfold attach_window
  by_cases hg : (t.attached || !is_window os t.hwnd) = true
  · simpa [hg] using h
  · simp only [hg, Bool.false_eq_true, if_false]
    intro _
    rfl

theorem tabOk_detach (t : VBoxTab) (os : OS) (h : TabOk t) :
    TabOk (detach_window t os).1 := by
  rcases detach_window_cases t os with hc | hc
  · rw [hc]; exact h
  · exact tabOk_of_detached hc

theorem allOk_append {l1 l2 : List (Nat × VBoxTab)}
    (h1 : ∀ e ∈ l1, TabOk e.2) (h2 : ∀ e ∈ l2, TabOk e.2) :
    ∀ e ∈ l1 ++ l2, TabOk e.2 := by
  intro e he
  rcases List.mem_append.mp he with he | he
  · exact h1 e he
  · exact h2 e he

theorem allOk_filter {l : List (Nat × VBoxTab)} {q : Nat × VBoxTab → Bool}
    (h1 : ∀ e ∈ l, TabOk e.2) : ∀ e ∈ l.filter q, TabOk e.2 :=
  fun e he => h1 e (List.mem_filter.mp he).1

theorem allOk_updateTab {l : List (Nat × VBoxTab)} {h : Nat} {t : VBoxTab}
    (h1 : ∀ e ∈ l, TabOk e.2) (ht : TabOk t) :
    ∀ e ∈ updateTab l h t, TabOk e.2 := by
  intro e he
  unfold updateTab updAssoc at he
  rcases List.mem_map.mp he with ⟨a, ha, rfl⟩
  by_cases hk : a.1 = h
  · simpa [hk] using ht
  · simpa [hk] using h1 a ha

theorem regOk_cleanup (st : AppState) (h : Nat) (hall : RegOk st) :
    RegOk (cleanup_closed_tab st h) := by
  unfold cleanup_closed_tab
  split
  · exact allOk_filter hall
  · exact hall

theorem regOk_addBase (st : AppState) (w : FoundWindow) (hall : RegOk st) :
    RegOk (addBase st w) :=
  allOk_append hall (by
    intro e he
    simp at he
    subst he
    exact tabOk_of_detached rfl)

theorem regOk_clearDetached (st : AppState) (h : Nat) (hall : RegOk st) :
    RegOk (clearDetached st h) := hall

theorem regOk_attachInto (st : AppState) (h : Nat) (tab : VBoxTab)
    (hall : RegOk st) (ht : TabOk tab) : RegOk (attachInto st h tab) :=
  allOk_updateTab hall (tabOk_attach tab st.os ht)

theorem regOk_add (st : AppState) (w : FoundWindow) (f a : Bool)
    (hall : RegOk st) : RegOk (add_tab_for_window st w f a) := by
  unfold add_tab_for_window
  split
  · exact hall
  · split
    · refine regOk_attachInto _ _ _ ?_ (tabOk_of_detached rfl)
      split
      · exact regOk_clearDetached _ _ (regOk_addBase st w hall)
      · exact regOk_addBase st w hall
    · exact regOk_addBase st w hall

theorem regOk_forceReattach (st : AppState) (h : Nat) (hall : RegOk st) :
    RegOk (forceReattach st h) := by
  unfold forceReattach
  split
  · rename_i tab heq
    split
    · exact regOk_attachInto _ _ _ hall (hall (h, tab) (mem_of_lookup heq))
    · exact hall
  · exact hall

theorem regOk_processFound (st : AppState) (w : FoundWindow) (a : Bool)
    (hall : RegOk st) : RegOk (processFound st w a) := by
  unfold processFound
  split
  · split
    · exact regOk_forceReattach _ _ (regOk_clearDetached _ _ hall)
    · exact hall
  · split
    · exact hall
    · split
      · exact hall
      · exact regOk_add st w a a hall

theorem regOk_gcLoop (cur : List Nat) (snap : List (Nat × VBoxTab))
    (st : AppState) (hall : RegOk st) : RegOk (gcLoop cur snap st) := by
  induction snap generalizing st with
  | nil => exact hall
  | cons e rest ih =>
    obtain ⟨k, v⟩ := e
    unfold gcLoop
    apply ih
    split
    · exact regOk_cleanup st k hall
    · exact hall

theorem regOk_addLoop (a : Bool) (l : List FoundWindow) (st : AppState)
    (hall : RegOk st) : RegOk (addLoop a l st) := by
  induction l generalizing st with
  | nil => exact hall
  | cons w rest ih =>
    unfold addLoop
    exact ih _ (regOk_processFound st w a hall)

theorem regOk_refresh (st : AppState) (a : Bool) (hall : RegOk st) :
    RegOk (refresh_tabs st a) := by
  unfold refresh_tabs
  exact regOk_addLoop _ _ _ (regOk_gcLoop _ _ _ hall)

theorem regOk_detach_tab (st : AppState) (i : Nat) (hall : RegOk st) :
    RegOk (detach_tab st i) := by
  unfold detach_tab
  split
  · exact hall
  · rename_i e heq
    apply allOk_filter
    exact allOk_updateTab hall (tabOk_detach _ _ (hall e (List.get?_mem heq)))

theorem regOk_close_tab (st : AppState) (i : Nat) (hall : RegOk st) :
    RegOk (close_tab_by_index st i) := by
  unfold close_tab_by_index
  split
  · exact hall
  · exact regOk_cleanup _ _ hall

theorem allOk_detachAll (l : List (Nat × VBoxTab)) (os : OS)
    (hall : ∀ e ∈ l, TabOk e.2) : ∀ e ∈ (detachAll l os).1, TabOk e.2 := by
  induction l generalizing os with
  | nil => intro e he; simp [detachAll] at he
  | cons e rest ih =>
    intro e' he'
    unfold detachAll at he'
    simp only [List.mem_cons] at he'
    rcases he' with he' | he'
    · subst he'
      exact tabOk_detach _ _ (hall e (by simp))
    · exact ih _ (fun x hx => hall x (by simp [hx])) e' he'

theorem regOk_closeEvent (st : AppState) (hall : RegOk st) :
    RegOk (closeEvent st) := by
  unfold closeEvent
  exact allOk_detachAll st.tabs st.os hall

theorem regOk_execOp (st : AppState) (op : Op) (hall : RegOk st) :
    RegOk (execOp st op) := by
  cases op with
  | refresh b => exact regOk_refresh st b hall
  | detachTab i => exact regOk_detach_tab st i hall
  | closeTab i => exact regOk_close_tab st i hall
  | addForced w => exact regOk_add st w true false hall
  | appClose => exact regOk_closeEvent st hall
  | env os => exact hall

theorem regOk_execOps (st : AppState) (ops : List Op) (hall : RegOk st) :
    RegOk (execOps st ops) := by
  induction ops generalizing st with
  | nil => exact hall
  | cons op rest ih => exact ih _ (regOk_execOp st op hall)

theorem regOk_initState (settings : Settings) (os : OS) :
    RegOk (initState settings os) :=
  regOk_refresh _ _ (by intro e he; simp at he)

/-! ## State-effect lemmas for the reconciliation pass -/

theorem cleanup_os (st : AppState) (k : Nat) :
    (cleanup_closed_tab st k).os = st.os := by
  unfold cleanup_closed_tab
  split <;> rfl

theorem cleanup_settings (st : AppState) (k : Nat) :
    (cleanup_closed_tab st k).settings = st.settings := by
  unfold cleanup_closed_tab
  split <;> rfl

theorem gcLoop_os (cur : List Nat) (snap : List (Nat × VBoxTab)) (st : AppState) :
    (gcLoop cur snap st).os = st.os := by
  induction snap generalizing st with
  | nil => rfl
  | cons e rest ih =>
    obtain ⟨k, v⟩ := e
    unfold gcLoop
    rw [ih]
    split
    · exact cleanup_os st k
    · rfl

theorem gcLoop_settings (cur : List Nat) (snap : List (Nat × VBoxTab))
    (st : AppState) : (gcLoop cur snap st).settings = st.settings := by
  induction snap generalizing st with
  | nil => rfl
  | cons e rest ih =>
    obtain ⟨k, v⟩ := e
    unfold gcLoop
    rw [ih]
    split
    · exact cleanup_settings st k
    · rfl

theorem is_window_attachInto (st : AppState) (k : Nat) (tab : VBoxTab) (h : Nat) :
    is_window (attachInto st k tab).os h = is_window st.os h :=
  is_window_attach tab st.os h

theorem is_window_add (st : AppState) (w : FoundWindow) (f a : Bool) (h : Nat) :
    is_window (add_tab_for_window st w f a).os h = is_window st.os h := by
  unfold add_tab_for_window
  split
  · rfl
  · split
    · rw [is_window_attachInto]
      split <;> rfl
    · rfl

theorem is_window_forceReattach (st : AppState) (k h : Nat) :
    is_window (forceReattach st k).os h = is_window st.os h := by
  unfold forceReattach
  split
  · split
    · exact is_window_attachInto _ _ _ _
    · rfl
  · rfl

theorem is_window_processFound (st : AppState) (w : FoundWindow) (b : Bool)
    (h : Nat) : is_window (processFound st w b).os h = is_window st.os h := by
  unfold processFound
  split
  · split
    · exact is_window_forceReattach _ _ _
    · rfl
  · split
    · rfl
    · split
      · rfl
      · exact is_window_add _ _ _ _ _

theorem cleanup_lookup_none (st : AppState) (k h : Nat)
    (hn : st.tabs.lookup h = none) :
    (cleanup_closed_tab st k).tabs.lookup h = none := by
  unfold cleanup_closed_tab
  split
  · exact lookup_none_filter _ hn
  · exact hn

theorem cleanup_not_in_set (st : AppState) (k h : Nat)
    (hm : h ∉ st.manually_detached) :
    h ∉ (cleanup_closed_tab st k).manually_detached := by
  unfold cleanup_closed_tab
  split
  · exact not_mem_filter_of_not_mem _ hm
  · exact hm

theorem cleanup_in_set_of_untracked (st : AppState) (k h : Nat)
    (hn : st.tabs.lookup h = none) (hm : h ∈ st.manually_detached) :
    h ∈ (cleanup_closed_tab st k).manually_detached := by
  unfold cleanup_closed_tab
  split
  · rename_i hg
    have hk : h ≠ k := by
      intro hc
      rw [hc] at hn
      rw [hn] at hg
      exact Bool.noConfusion hg
    exact mem_filter_ne_of_mem hm hk
  · exact hm

/-- GC never creates a tab and never adds to the manually-detached set:
an untracked handle (whether or not it is in the set) keeps both
statuses. -/
theorem gcLoop_untracked (cur : List Nat) (snap : List (Nat × VBoxTab))
    (st : AppState) (h : Nat) (hn : st.tabs.lookup h = none) :
    (gcLoop cur snap st).tabs.lookup h = none ∧
    (h ∈ st.manually_detached →
      h ∈ (gcLoop cur snap st).manually_detached) ∧
    (h ∉ st.manually_detached →
      h ∉ (gcLoop cur snap st).manually_detached) := by
  induction snap generalizing st with
  | nil => exact ⟨hn, fun hm => hm, fun hm => hm⟩
  | cons e rest ih =>
    obtain ⟨k, v⟩ := e
    unfold gcLoop
    split
    · exact ⟨(ih _ (cleanup_lookup_none st k h hn)).1,
        fun hm => (ih _ (cleanup_lookup_none st k h hn)).2.1
          (cleanup_in_set_of_untracked st k h hn hm),
        fun hm => (ih _ (cleanup_lookup_none st k h hn)).2.2
          (cleanup_not_in_set st k h hm)⟩
    · exact ih st hn

theorem add_keeps_lookup_none (st : AppState) (w : FoundWindow) (f a : Bool)
    (h : Nat) (hne : w.hwnd ≠ h) (hn : st.tabs.lookup h = none) :
    (add_tab_for_window st w f a).tabs.lookup h = none := by
  have hsingle : ([(w.hwnd, freshTab st w)] : List (Nat × VBoxTab)).lookup h = none := by
    rw [lookup_cons, if_neg (fun hc => hne hc.symm)]
    rfl
  unfold add_tab_for_window
  split
  · exact hn
  · split
    · unfold attachInto updateTab
      simp only
      rw [lookup_updAssoc_ne _ _ _ _ (fun hc => hne hc.symm)]
      split
      · exact (lookup_append_none _ hn).trans hsingle
      · exact (lookup_append_none _ hn).trans hsingle
    · exact (lookup_append_none _ hn).trans hsingle

theorem add_keeps_lookup_some (st : AppState) (w : FoundWindow) (f a : Bool)
    (h : Nat) (t : VBoxTab) (hne : w.hwnd ≠ h)
    (hs : st.tabs.lookup h = some t) :
    (add_tab_for_window st w f a).tabs.lookup h = some t := by
  unfold add_tab_for_window
  split
  · exact hs
  · split
    · unfold attachInto updateTab
      simp only
      rw [lookup_updAssoc_ne _ _ _ _ (fun hc => hne hc.symm)]
      split
      · exact lookup_append_some _ hs
      · exact lookup_append_some _ hs
    · exact lookup_append_some _ hs

theorem add_keeps_in_set (st : AppState) (w : FoundWindow) (f a : Bool)
    (h : Nat) (hne : w.hwnd ≠ h) (hm : h ∈ st.manually_detached) :
    h ∈ (add_tab_for_window st w f a).manually_detached := by
  unfold add_tab_for_window
  split
  · exact hm
  · split
    · unfold attachInto
      simp only
      split
      · exact mem_filter_ne_of_mem hm (fun hc => hne hc.symm)
      · exact hm
    · exact hm

theorem add_keeps_not_in_set (st : AppState) (w : FoundWindow) (f a : Bool)
    (h : Nat) (hm : h ∉ st.manually_detached) :
    h ∉ (add_tab_for_window st w f a).manually_detached := by
  unfold add_tab_for_window
  split
  · exact hm
  · split
    · unfold attachInto
      simp only
      split
      · exact not_mem_filter_of_not_mem _ hm
      · exact hm
    · exact hm

theorem forceReattach_set (st : AppState) (k : Nat) :
    (forceReattach st k).manually_detached = st.manually_detached := by
  unfold forceReattach
  split
  · split
    · rfl
    · rfl
  · rfl

theorem forceReattach_keeps_lookup (st : AppState) (k h : Nat) (hne : k ≠ h) :
    (forceReattach st k).tabs.lookup h = st.tabs.lookup h := by
  unfold forceReattach attachInto updateTab
  split
  · split
    · exact lookup_updAssoc_ne _ _ _ _ (fun hc => hne hc.symm)
    · rfl
  · rfl

/-! ## Manual-detach suppression (claim C3) -/

/-- An automatic (non-attach-all) additions step never touches a window
whose handle is manually detached and untracked, and never removes other
handles from the manually-detached set. -/
theorem processFound_suppressed (st : AppState) (w : FoundWindow) (h : Nat)
    (hn : st.tabs.lookup h = none) (hm : h ∈ st.manually_detached) :
    (processFound st w false).tabs.lookup h = none ∧
    h ∈ (processFound st w false).manually_detached := by
  unfold processFound
  split
  · simp only [Bool.false_and, Bool.false_eq_true, if_false]
    exact ⟨hn, hm⟩
  · split
    · exact ⟨hn, hm⟩
    · split
      · exact ⟨hn, hm⟩
      · rename_i hc1 hc2
        have hne : w.hwnd ≠ h := by
          intro hc
          subst hc
          exact hc1 (by simp [hm])
        exact ⟨add_keeps_lookup_none st w false false h hne hn,
          add_keeps_in_set st w false false h hne hm⟩

theorem addLoop_suppressed (l : List FoundWindow) (st : AppState) (h : Nat)
    (hn : st.tabs.lookup h = none) (hm : h ∈ st.manually_detached) :
    (addLoop false l st).tabs.lookup h = none ∧
    h ∈ (addLoop false l st).manually_detached := by
  induction l generalizing st with
  | nil => exact ⟨hn, hm⟩
  | cons w rest ih =>
    unfold addLoop
    exact ih _ (processFound_suppressed st w h hn hm).1
      (processFound_suppressed st w h hn hm).2

theorem refresh_suppressed (st : AppState) (h : Nat)
    (hn : st.tabs.lookup h = none) (hm : h ∈ st.manually_detached) :
    (refresh_tabs st false).tabs.lookup h = none ∧
    h ∈ (refresh_tabs st false).manually_detached := by
  unfold refresh_tabs
  have hgc := gcLoop_untracked ((find_embeddable_windows st.os).map
    FoundWindow.hwnd) st.tabs st h hn
  exact addLoop_suppressed _ _ h hgc.1 (hgc.2.1 hm)

/-- After `detach_tab`, the detached handle is untracked and recorded in
the manually-detached set. -/
theorem detach_tab_suppressed (st : AppState) (i : Nat) (e : Nat × VBoxTab)
    (hget : st.tabs.get? i = some e) :
    (detach_tab st i).tabs.lookup e.2.hwnd = none ∧
    e.2.hwnd ∈ (detach_tab st i).manually_detached := by
  unfold detach_tab
  split
  · rename_i heq
    rw [hget] at heq
    exact Option.noConfusion heq
  · rename_i e' heq
    rw [hget] at heq
    have he : e' = e := by
      injection heq with hh
      exact hh.symm
    subst he
    exact ⟨lookup_filter_key_ne _ _, List.mem_append.mpr (Or.inr (by simp))⟩

theorem refreshN_suppressed (st : AppState) (h : Nat) (n : Nat)
    (hn : st.tabs.lookup h = none) (hm : h ∈ st.manually_detached) :
    (execOps st (List.replicate n (Op.refresh false))).tabs.lookup h = none ∧
    h ∈ (execOps st (List.replicate n (Op.refresh false))).manually_detached := by
  induction n generalizing st with
  | zero => exact ⟨hn, hm⟩
  | succ n ih =>
    rw [List.replicate_succ]
    exact ih _ (refresh_suppressed st h hn hm).1 (refresh_suppressed st h hn hm).2

/-- C3: after the user detaches tab `i` (`detach_tab`, which records the
handle in the manually-detached set), any number of subsequent automatic
(non-attach-all) reconciliation passes leave the handle untracked — not
re-attached — and still in the manually-detached set, whatever the
desktop enumeration finds. -/
theorem manual_detach_not_reattached (st : AppState) (i : Nat)
    (e : Nat × VBoxTab) (hget : st.tabs.get? i = some e) (n : Nat) :
    (execOps (detach_tab st i)
      (List.replicate n (Op.refresh false))).tabs.lookup e.2.hwnd = none ∧
    e.2.hwnd ∈ (execOps (detach_tab st i)
      (List.replicate n (Op.refresh false))).manually_detached :=
  refreshN_suppressed (detach_tab st i) e.2.hwnd n
    (detach_tab_suppressed st i e hget).1 (detach_tab_suppressed st i e hget).2

/-- A registry tracking the attached tab `tabAtt1` for the live window
`winLive`. -/
def stOne : AppState :=
  { tabs := [(1, tabAtt1)], manually_detached := [], custom_tab_names := [],
    settings := defaultSettings, nextContainer := 1, os := osOne }

/-- C3 witness: user-detach the single tab of `stOne`, then run one
automatic pass that still enumerates the window. -/
theorem manual_detach_not_reattached_witness :
    stOne.tabs.get? 0 = some (1, tabAtt1) ∧
    ((execOps (detach_tab stOne 0)
      (List.replicate 1 (Op.refresh false))).tabs.lookup 1 = none ∧
    1 ∈ (execOps (detach_tab stOne 0)
      (List.replicate 1 (Op.refresh false))).manually_detached) :=
  ⟨rfl, manual_detach_not_reattached stOne 0 (1, tabAtt1) rfl 1⟩

/-! ## Attach-all overrides suppression (claim C4) -/

theorem classify_hwnd {k : Nat} {w : OSWindow} {fw : FoundWindow}
    (hc : classifyWindow k w = some fw) : fw.hwnd = k := by
  unfold classifyWindow at hc
  split at hc
  · exact Option.noConfusion hc
  · split at hc
    · exact Option.noConfusion hc
    · split at hc
      · cases hc; rfl
      · split at hc
        · cases hc; rfl
        · split at hc
          · cases hc; rfl
          · exact Option.noConfusion hc

theorem lookup_isSome_of_mem {β : Type} {l : List (Nat × β)} {k : Nat} {v : β}
    (hm : (k, v) ∈ l) : (l.lookup k).isSome = true := by
  induction l with
  | nil => simp at hm
  | cons e rest ih =>
    obtain ⟨k', v'⟩ := e
    rw [lookup_cons]
    by_cases hk : k = k'
    · rw [if_pos hk]; rfl
    · rw [if_neg hk]
      rcases List.mem_cons.mp hm with hm | hm
    -- the head case contradicts k ≠ k'
      · exact absurd (congrArg Prod.fst hm) hk
      · exact ih hm

/-- Every handle the enumeration reports belongs to an alive window. -/
theorem found_alive (os : OS) (h : Nat)
    (hf : h ∈ (find_embeddable_windows os).map FoundWindow.hwnd) :
    is_window os h = true := by
  rcases List.mem_map.mp hf with ⟨fw, hfw, hh⟩
  rcases List.mem_filterMap.mp hfw with ⟨e, he, hc⟩
  have hk : fw.hwnd = e.1 := classify_hwnd hc
  have : (os.windows.lookup e.1).isSome = true :=
    lookup_isSome_of_mem (by simpa using he)
  unfold is_window
  rw [← hh, hk]
  exact this

/-- A forced add (`force_attach = True`) of an untracked, live window
leaves it tracked and attached, and clears it from the manually-detached
set (whether or not it was there). -/
theorem add_attaches (st : AppState) (w : FoundWindow) (a : Bool)
    (hn : st.tabs.lookup w.hwnd = none)
    (halive : is_window st.os w.hwnd = true) :
    ((add_tab_for_window st w true a).tabs.lookup w.hwnd).map VBoxTab.attached =
      some true ∧
    w.hwnd ∉ (add_tab_for_window st w true a).manually_detached := by
  have hbase : ((addBase st w).tabs.lookup w.hwnd) = some (freshTab st w) := by
    unfold addBase
    simp only
    rw [lookup_append_none _ hn, lookup_cons, if_pos rfl]
  have hatt :
      attach_window (freshTab st w) st.os =
        ({ freshTab st w with
            orig_win_details :=
              some (set_window_parent st.os (freshTab st w).hwnd
                (freshTab st w).container).1,
            attached := true, detached_manually := false },
          (set_window_parent st.os (freshTab st w).hwnd
            (freshTab st w).container).2) := by
    unfold attach_window
    rw [if_neg]
    intro hc
    rw [show (freshTab st w).attached = false from rfl,
      show (freshTab st w).hwnd = w.hwnd from rfl, halive] at hc
    simp at hc
  unfold add_tab_for_window
  rw [if_neg (by rw [hn]; exact fun hc => Bool.noConfusion hc),
    if_pos (by unfold shouldAttach; rfl)]
  split
  · constructor
    · unfold attachInto updateTab
      simp only
      rw [lookup_updAssoc_self _ _ _ (by
        have : (clearDetached (addBase st w) w.hwnd).tabs.lookup w.hwnd =
            some (freshTab st w) := hbase
        rw [this]; rfl)]
      have : (clearDetached (addBase st w) w.hwnd).os = st.os := rfl
      rw [this, hatt]
      rfl
    · unfold attachInto clearDetached
      simp only
      intro hc
      have h2 := (List.mem_filter.mp hc).2
      simp at h2
  · constructor
    · unfold attachInto updateTab
      simp only
      rw [lookup_updAssoc_self _ _ _ (by rw [hbase]; rfl)]
      have : (addBase st w).os = st.os := rfl
      rw [this, hatt]
      rfl
    · rename_i hnm
      unfold attachInto
      simp only
      exact fun hc => hnm hc

/-- A processed enumeration entry for an untracked handle suppressed by
neither rule, under the attach-all trigger, ends attached and out of the
manually-detached set. -/
theorem processFound_attaches (st : AppState) (w : FoundWindow)
    (hn : st.tabs.lookup w.hwnd = none)
    (halive : is_window st.os w.hwnd = true) :
    ((processFound st w true).tabs.lookup w.hwnd).map VBoxTab.attached =
      some true ∧
    w.hwnd ∉ (processFound st w true).manually_detached := by
  unfold processFound
  rw [if_neg (by rw [hn]; exact fun hc => Bool.noConfusion hc)]
  simp only [Bool.not_true, Bool.and_false, Bool.false_eq_true, if_false]
  exact add_attaches st w true hn halive

theorem processFound_keeps_lookup_none (st : AppState) (w : FoundWindow)
    (b : Bool) (h : Nat) (hne : w.hwnd ≠ h) (hn : st.tabs.lookup h = none) :
    (processFound st w b).tabs.lookup h = none := by
  unfold processFound
  split
  · split
    · rw [forceReattach_keeps_lookup _ _ _ hne]
      exact hn
    · exact hn
  · split
    · exact hn
    · split
      · exact hn
      · exact add_keeps_lookup_none st w b b h hne hn

/-- Once a handle is tracked-attached and out of the manually-detached
set, further additions-loop steps keep it so. -/
theorem processFound_keeps_attached (st : AppState) (w : FoundWindow)
    (b : Bool) (h : Nat)
    (hq1 : (st.tabs.lookup h).map VBoxTab.attached = some true)
    (hq2 : h ∉ st.manually_detached) :
    ((processFound st w b).tabs.lookup h).map VBoxTab.attached = some true ∧
    h ∉ (processFound st w b).manually_detached := by
  obtain ⟨t, hs, hatt⟩ : ∃ t, st.tabs.lookup h = some t ∧ t.attached = true := by
    cases hl : st.tabs.lookup h with
    | none => rw [hl] at hq1; exact Option.noConfusion hq1
    | some t =>
      rw [hl] at hq1
      exact ⟨t, rfl, by injection hq1⟩
  by_cases hw : w.hwnd = h
  · subst hw
    unfold processFound
    rw [if_pos (by rw [hs]; rfl),
      if_neg (by simp [hq2])]
    exact ⟨hq1, hq2⟩
  · unfold processFound
    split
    · split
      · rw [forceReattach_keeps_lookup _ _ _ hw, forceReattach_set]
        refine ⟨hq1, ?_⟩
        unfold clearDetached
        simp only
        exact not_mem_filter_of_not_mem _ hq2
      · exact ⟨hq1, hq2⟩
    · split
      · exact ⟨hq1, hq2⟩
      · split
        · exact ⟨hq1, hq2⟩
        · rw [add_keeps_lookup_some st w b b h t hw hs]
          exact ⟨by simp [hatt], add_keeps_not_in_set st w b b h hq2⟩

theorem addLoop_keeps_attached (b : Bool) (l : List FoundWindow)
    (st : AppState) (h : Nat)
    (hq1 : (st.tabs.lookup h).map VBoxTab.attached = some true)
    (hq2 : h ∉ st.manually_detached) :
    ((addLoop b l st).tabs.lookup h).map VBoxTab.attached = some true ∧
    h ∉ (addLoop b l st).manually_detached := by
  induction l generalizing st with
  | nil => exact ⟨hq1, hq2⟩
  | cons w rest ih =>
    unfold addLoop
    have hstep := processFound_keeps_attached st w b h hq1 hq2
    exact ih _ hstep.1 hstep.2

theorem addLoop_attach_all (l : List FoundWindow) (st : AppState) (h : Nat)
    (hmem : ∃ w ∈ l, w.hwnd = h) (hn : st.tabs.lookup h = none)
    (halive : is_window st.os h = true) :
    ((addLoop true l st).tabs.lookup h).map VBoxTab.attached = some true ∧
    h ∉ (addLoop true l st).manually_detached := by
  induction l generalizing st with
  | nil => rcases hmem with ⟨w, hw, _⟩; simp at hw
  | cons w rest ih =>
    unfold addLoop
    by_cases hwh : w.hwnd = h
    · subst hwh
      have hq := processFound_attaches st w hn halive
      exact addLoop_keeps_attached true rest _ w.hwnd hq.1 hq.2
    · rcases hmem with ⟨w', hw', hh'⟩
      rcases List.mem_cons.mp hw' with hw' | hw'
      · exact absurd (hw' ▸ hh' : w.hwnd = h) hwh
      · exact ih (processFound st w true) ⟨w', hw', hh'⟩
          (processFound_keeps_lookup_none st w true h hwh hn)
          (by rw [is_window_processFound]; exact halive)

/-- C4 (amended): an explicit attach-all pass on a manually-detached,
untracked window **that the enumeration still reports** leaves it
tracked in the `Attached` state and removes its handle from the
manually-detached set.  (A live window the classifier does not report —
e.g. a previously picked arbitrary window — is not re-attached; see the
counterexample.) -/
theorem attach_all_reattaches (st : AppState) (h : Nat)
    (_hm : h ∈ st.manually_detached) (hn : st.tabs.lookup h = none)
    (hfound : h ∈ (find_embeddable_windows st.os).map FoundWindow.hwnd) :
    ((refresh_tabs st true).tabs.lookup h).map VBoxTab.attached = some true ∧
    h ∉ (refresh_tabs st true).manually_detached := by
  unfold refresh_tabs
  have hgc := gcLoop_untracked ((find_embeddable_windows st.os).map
    FoundWindow.hwnd) st.tabs st h hn
  rcases List.mem_map.mp hfound with ⟨fw, hfw, hh⟩
  exact addLoop_attach_all _ _ h ⟨fw, hfw, hh⟩ hgc.1
    (by rw [gcLoop_os]; exact found_alive st.os h hfound)

/-- A live, visible, but unclassifiable window (a picked notepad),
manually detached and untracked. -/
def winPicked : OSWindow :=
  { title := "Untitled - Notepad".toList, style := 0x00CF0000, parent := 0,
    visible := true, pid := 77, procName := "notepad.exe".toList }

/-- A registry where handle 4 (the picked window) was manually
detached. -/
def stPicked : AppState :=
  { tabs := [], manually_detached := [4], custom_tab_names := [],
    settings := defaultSettings, nextContainer := 1,
    os := { windows := [(4, winPicked)], termProcs := [77] } }

/-- C4 counterexample: an attach-all pass on the manually-detached,
still-live picked window leaves it unattached (untracked) and still in
the manually-detached set, because the enumeration does not report
unclassifiable windows. -/
theorem attach_all_reattaches_cex :
    (refresh_tabs stPicked true).tabs.lookup 4 = none ∧
    4 ∈ (refresh_tabs stPicked true).manually_detached := by
  decide

/-- A registry where the live VM window `winLive` (handle 1) was
manually detached and is untracked. -/
def stPicked2 : AppState :=
  { tabs := [], manually_detached := [1], custom_tab_names := [],
    settings := defaultSettings, nextContainer := 1, os := osOne }

/-- C4 witness: the attach-all theorem applied to a manually-detached
VM window that the enumeration reports. -/
theorem attach_all_reattaches_witness :
    1 ∈ stPicked2.manually_detached ∧ stPicked2.tabs.lookup 1 = none ∧
    1 ∈ (find_embeddable_windows stPicked2.os).map FoundWindow.hwnd ∧
    (((refresh_tabs stPicked2 true).tabs.lookup 1).map VBoxTab.attached =
      some true ∧
    1 ∉ (refresh_tabs stPicked2 true).manually_detached) :=
  ⟨by decide, rfl, by decide,
    attach_all_reattaches stPicked2 1 (by decide) rfl (by decide)⟩

/-! ## GC precedes additions (claim C5) -/

theorem cleanup_removes (st : AppState) (h : Nat)
    (hsome : (st.tabs.lookup h).isSome = true) :
    (cleanup_closed_tab st h).tabs.lookup h = none ∧
    h ∉ (cleanup_closed_tab st h).manually_detached := by
  unfold cleanup_closed_tab
  rw [if_pos hsome]
  refine ⟨lookup_filter_key_ne _ _, ?_⟩
  intro hc
  have h2 := (List.mem_filter.mp hc).2
  simp at h2

theorem cleanup_keeps_isSome (st : AppState) (k h : Nat) (hk : h ≠ k)
    (hs : (st.tabs.lookup h).isSome = true) :
    ((cleanup_closed_tab st k).tabs.lookup h).isSome = true := by
  unfold cleanup_closed_tab
  split
  · exact lookup_isSome_filter_key hk hs
  · exact hs

/-- The GC loop of one pass tears down a tracked handle that is dead and
absent from the enumeration: afterwards it is neither in the registry
nor in the manually-detached set. -/
theorem gcLoop_removes (cur : List Nat) (snap : List (Nat × VBoxTab))
    (st : AppState) (h : Nat) (hncur : h ∉ cur)
    (hdead : is_window st.os h = false)
    (hstate : ((st.tabs.lookup h).isSome = true ∧ ∃ t, (h, t) ∈ snap) ∨
      (st.tabs.lookup h = none ∧ h ∉ st.manually_detached)) :
    (gcLoop cur snap st).tabs.lookup h = none ∧
    h ∉ (gcLoop cur snap st).manually_detached := by
  induction snap generalizing st with
  | nil =>
    rcases hstate with ⟨_, t, hmem⟩ | ⟨hn, hm⟩
    · simp at hmem
    · exact ⟨hn, hm⟩
  | cons e rest ih =>
    obtain ⟨k, v⟩ := e
    unfold gcLoop
    by_cases hk : k = h
    · subst hk
      rcases hstate with ⟨hsome, _⟩ | ⟨hn, hm⟩
      · rw [if_pos (by simp [hncur, hdead])]
        have hrm := cleanup_removes st k hsome
        exact ih (cleanup_closed_tab st k)
          (by rw [cleanup_os]; exact hdead) (Or.inr hrm)
      · split
        · exact ih _ (by rw [cleanup_os]; exact hdead)
            (Or.inr ⟨cleanup_lookup_none st k _ hn, cleanup_not_in_set st k _ hm⟩)
        · exact ih st hdead (Or.inr ⟨hn, hm⟩)
    · split
      · rcases hstate with ⟨hsome, t, hmem⟩ | ⟨hn, hm⟩
        · rcases List.mem_cons.mp hmem with hmem | hmem
          · exact absurd (congrArg Prod.fst hmem).symm hk
          · exact ih _ (by rw [cleanup_os]; exact hdead)
              (Or.inl ⟨cleanup_keeps_isSome st k h (fun hc => hk hc.symm) hsome,
                t, hmem⟩)
        · exact ih _ (by rw [cleanup_os]; exact hdead)
            (Or.inr ⟨cleanup_lookup_none st k h hn, cleanup_not_in_set st k h hm⟩)
      · rcases hstate with ⟨hsome, t, hmem⟩ | ⟨hn, hm⟩
        · rcases List.mem_cons.mp hmem with hmem | hmem
          · exact absurd (congrArg Prod.fst hmem).symm hk
          · exact ih st hdead (Or.inl ⟨hsome, t, hmem⟩)
        · exact ih st hdead (Or.inr ⟨hn, hm⟩)

theorem processFound_keeps_not_in_set (st : AppState) (w : FoundWindow)
    (b : Bool) (h : Nat) (hm : h ∉ st.manually_detached) :
    h ∉ (processFound st w b).manually_detached := by
  unfold processFound
  split
  · split
    · rw [forceReattach_set]
      unfold clearDetached
      simp only
      exact not_mem_filter_of_not_mem _ hm
    · exact hm
  · split
    · exact hm
    · split
      · exact hm
      · exact add_keeps_not_in_set st w b b h hm

/-- The additions loop never resurrects a handle absent from the
enumeration: untracked and not manually detached stays that way. -/
theorem addLoop_removed (b : Bool) (l : List FoundWindow) (st : AppState)
    (h : Nat) (hn : st.tabs.lookup h = none) (hm : h ∉ st.manually_detached)
    (hnf : ∀ w ∈ l, w.hwnd ≠ h) :
    (addLoop b l st).tabs.lookup h = none ∧
    h ∉ (addLoop b l st).manually_detached := by
  induction l generalizing st with
  | nil => exact ⟨hn, hm⟩
  | cons w rest ih =>
    unfold addLoop
    exact ih _
      (processFound_keeps_lookup_none st w b h (hnf w (by simp)) hn)
      (processFound_keeps_not_in_set st w b h hm)
      (fun w' hw' => hnf w' (by simp [hw']))

/-- C5: within a single reconciliation pass, a tracked handle that is
dead and absent from the fresh enumeration is torn down by the
garbage-collection phase — gone from the registry and from the
manually-detached set in the very state the additions loop starts from —
and the additions loop never recreates it, so it is also gone at the end
of the pass. -/
theorem gc_precedes_additions (st : AppState) (b : Bool) (h : Nat)
    (htrack : (st.tabs.lookup h).isSome = true)
    (hdead : is_window st.os h = false)
    (hnf : h ∉ (find_embeddable_windows st.os).map FoundWindow.hwnd) :
    ((gcLoop ((find_embeddable_windows st.os).map FoundWindow.hwnd)
        st.tabs st).tabs.lookup h = none ∧
      h ∉ (gcLoop ((find_embeddable_windows st.os).map FoundWindow.hwnd)
        st.tabs st).manually_detached) ∧
    (refresh_tabs st b).tabs.lookup h = none ∧
    h ∉ (refresh_tabs st b).manually_detached := by
  have hmem : ∃ t, (h, t) ∈ st.tabs := by
    cases hl : st.tabs.lookup h with
    | none => rw [hl] at htrack; exact Bool.noConfusion htrack
    | some t => exact ⟨t, mem_of_lookup hl⟩
  have hgc := gcLoop_removes ((find_embeddable_windows st.os).map
    FoundWindow.hwnd) st.tabs st h hnf hdead (Or.inl ⟨htrack, hmem⟩)
  have hnf' : ∀ w ∈ find_embeddable_windows st.os, w.hwnd ≠ h := by
    intro w hw hc
    exact hnf (List.mem_map.mpr ⟨w, hw, hc⟩)
  have hadd := addLoop_removed b (find_embeddable_windows st.os) _ h
    hgc.1 hgc.2 hnf'
  exact ⟨hgc, hadd⟩

/-- A registry tracking the dead-window tab `tabDeadAtt`, with its handle
also in the manually-detached set. -/
def stDeadSet : AppState :=
  { tabs := [(3, tabDeadAtt)], manually_detached := [3], custom_tab_names := [],
    settings := defaultSettings, nextContainer := 1, os := osEmpty }

/-- C5 witness: one automatic pass on `stDeadSet` (empty desktop) tears
handle 3 down in the GC phase and does not recreate it. -/
theorem gc_precedes_additions_witness :
    ((stDeadSet.tabs.lookup 3).isSome = true ∧
      is_window stDeadSet.os 3 = false ∧
      3 ∉ (find_embeddable_windows stDeadSet.os).map FoundWindow.hwnd) ∧
    (((gcLoop ((find_embeddable_windows stDeadSet.os).map FoundWindow.hwnd)
        stDeadSet.tabs stDeadSet).tabs.lookup 3 = none ∧
      3 ∉ (gcLoop ((find_embeddable_windows stDeadSet.os).map FoundWindow.hwnd)
        stDeadSet.tabs stDeadSet).manually_detached) ∧
    (refresh_tabs stDeadSet false).tabs.lookup 3 = none ∧
    3 ∉ (refresh_tabs stDeadSet false).manually_detached) :=
  ⟨⟨rfl, rfl, by decide⟩,
    gc_precedes_additions stDeadSet false 3 rfl rfl (by decide)⟩

/-! ## Termination is advisory (claim C7) -/

/-- C7: `terminate_process_by_id` returns `False` (never an exception)
on any failure, and `close_tab_by_index` removes the closed tab from the
registry regardless of the termination outcome (the cleanup runs in both
branches). -/
theorem terminate_advisory (os : OS) (pid : Nat) (st : AppState) (i : Nat)
    (e : Nat × VBoxTab) (hget : st.tabs.get? i = some e)
    (hfail : pid ∉ os.termProcs) :
    terminate_process_by_id os pid = (false, os) ∧
    (close_tab_by_index st i).tabs.lookup e.2.hwnd = none := by
  constructor
  · unfold terminate_process_by_id
    rw [if_neg hfail]
  · unfold close_tab_by_index
    split
    · rename_i heq
      rw [hget] at heq
      exact Option.noConfusion heq
    · rename_i e' heq
      rw [hget] at heq
      have he : e' = e := by
        injection heq with hh
        exact hh.symm
      subst he
      unfold cleanup_closed_tab
      split
      · exact lookup_filter_key_ne _ _
      · rename_i hg
        exact Option.not_isSome_iff_eq_none.mp hg

/-- C7 witness: pid 99 is not terminable on `osOne`, and closing the
only tab of `stOne` removes it from the registry. -/
theorem terminate_advisory_witness :
    stOne.tabs.get? 0 = some (1, tabAtt1) ∧ 99 ∉ osOne.termProcs ∧
    (terminate_process_by_id osOne 99 = (false, osOne) ∧
      (close_tab_by_index stOne 0).tabs.lookup 1 = none) :=
  ⟨rfl, by decide, terminate_advisory osOne 99 stOne 0 (1, tabAtt1) rfl (by decide)⟩

/-! ## Enumeration of a running VM and auto-attach (claim C8) -/

/-- A fresh manager state (defaults, nothing tracked) over a desktop
with the single window `w` under handle `h`. -/
def freshState (h : Nat) (w : OSWindow) : AppState :=
  { tabs := [], manually_detached := [], custom_tab_names := [],
    settings := defaultSettings, nextContainer := 0,
    os := { windows := [(h, w)], termProcs := [] } }

/-- C8 (amended): a visible window whose title carries a `"[Running]"`
(or Russian `"[Работает]"`) status marker **and** the `" Oracle
VirtualBox"` application suffix is classified as a VirtualBox VM with
the derived title `title.split(" [")[0]`, and a fresh reconciliation
pass with auto-attach enabled creates one tab for it in the `Attached`
state bearing that derived title. -/
theorem enum_running_vm_attaches (h : Nat) (w : OSWindow)
    (hvis : w.visible = true) (hne : w.title.isEmpty = false)
    (hpat : ((pyIn "[Running]".toList w.title ||
        pyIn "[Работает]".toList w.title) &&
      pyIn " Oracle VirtualBox".toList w.title) = true) :
    find_embeddable_windows (freshState h w).os =
      [{ hwnd := h, title := splitBefore " [".toList w.title,
         wtype := .virtualBox }] ∧
    ((refresh_tabs (freshState h w) false).tabs.lookup h).map
        (fun t => (t.attached, t.display_title, t.wtype)) =
      some (true, splitBefore " [".toList w.title, .virtualBox) := by
  have hclass : classifyWindow h w =
      some { hwnd := h, title := splitBefore " [".toList w.title,
             wtype := .virtualBox } := by
    unfold classifyWindow
    rw [hvis, hne]
    simp only [Bool.not_true, Bool.false_eq_true, if_false]
    rw [if_pos hpat]
  have hfind : find_embeddable_windows (freshState h w).os =
      [{ hwnd := h, title := splitBefore " [".toList w.title,
         wtype := .virtualBox }] := by
    simp [find_embeddable_windows, freshState, hclass]
  refine ⟨hfind, ?_⟩
  unfold refresh_tabs
  rw [hfind]
  simp only [List.map_cons, List.map_nil, gcLoop, addLoop]
  unfold processFound
  rw [if_neg (by simp [freshState]),
    if_neg (by simp [freshState]),
    if_neg (by simp)]
  unfold add_tab_for_window
  rw [if_neg (by simp [freshState]),
    if_pos (by simp [shouldAttach, autoAttachEnabled, freshState, defaultSettings]),
    if_neg (by simp [freshState])]
  unfold attachInto updateTab
  simp only
  have hb : (addBase (freshState h w)
      { hwnd := h, title := splitBefore " [".toList w.title,
        wtype := .virtualBox }).tabs.lookup h =
      some (freshTab (freshState h w)
        { hwnd := h, title := splitBefore " [".toList w.title,
          wtype := .virtualBox }) := by
    simp [addBase, freshState, lookup_cons]
  rw [lookup_updAssoc_self _ _ _ (by rw [hb]; rfl)]
  have hlive : is_window (addBase (freshState h w)
      { hwnd := h, title := splitBefore " [".toList w.title,
        wtype := .virtualBox }).os
      (freshTab (freshState h w)
        { hwnd := h, title := splitBefore " [".toList w.title,
          wtype := .virtualBox }).hwnd = true := by
    simp [addBase, freshState, is_window, freshTab, lookup_cons]
  unfold attach_window
  rw [if_neg (by rw [hlive]; simp [freshTab])]
  rfl

/-- A visible window whose title carries the `"[Running]"` marker but
not the `" Oracle VirtualBox"` suffix. -/
def winSuite : OSWindow :=
  { title := "VM-A [Running] - Suite".toList, style := 0x00CF0000, parent := 0,
    visible := true, pid := 9, procName := "suite.exe".toList }

/-- C8 counterexample: the claim's example title `"VM-A [Running] -
Suite"` is **not** classified (the code also requires the `" Oracle
VirtualBox"` substring), so no tab is created for it. -/
theorem enum_running_vm_cex :
    find_embeddable_windows (freshState 6 winSuite).os = [] ∧
    (refresh_tabs (freshState 6 winSuite) false).tabs.lookup 6 = none := by
  decide

/-- C8 witness: the amended theorem on the title
`"VM-A [Running] - Oracle VirtualBox"`, whose derived title is
`"VM-A"`. -/
theorem enum_running_vm_attaches_witness :
    splitBefore " [".toList winLive.title = "VM-A".toList ∧
    (find_embeddable_windows (freshState 1 winLive).os =
      [{ hwnd := 1, title := splitBefore " [".toList winLive.title,
         wtype := .virtualBox }] ∧
    ((refresh_tabs (freshState 1 winLive) false).tabs.lookup 1).map
        (fun t => (t.attached, t.display_title, t.wtype)) =
      some (true, splitBefore " [".toList winLive.title, .virtualBox)) :=
  ⟨by decide, enum_running_vm_attaches 1 winLive rfl rfl (by decide)⟩

/-- C1 (amended): along every sequence of user, reconciliation and
environment events from the initial state, every tracked handle that is
`Attached` carries saved restorable details (`orig_win_details` is
some).  The converse direction of the spec's biconditional is refuted by
`attached_saved_iff_cex`. -/
theorem attached_implies_saved (settings : Settings) (os : OS) (ops : List Op)
    (h : Nat) (t : VBoxTab)
    (hl : (execOps (initState settings os) ops).tabs.lookup h = some t)
    (hatt : t.attached = true) : t.orig_win_details.isSome = true :=
  regOk_execOps (initState settings os) ops (regOk_initState settings os)
    (h, t) (mem_of_lookup hl) hatt

/-- C1 counterexample: start the manager on a desktop with one running
VM (auto-attach default on), then run the `closeEvent` sweep: the tab for
handle 1 ends with `attached = False` while still holding saved details,
so `attached == True ⇔ orig_win_details is not None` fails. -/
theorem attached_saved_iff_cex :
    ((execOps (initState defaultSettings osOne) [Op.appClose]).tabs.lookup 1).map
      (fun t => (t.attached, t.orig_win_details.isSome)) = some (false, true) := by
  decide

/-- C1 witness: the invariant applied to the attached tab the initial
pass creates for `winLive`. -/
theorem attached_implies_saved_witness :
    (execOps (initState defaultSettings osOne) []).tabs.lookup 1 = some tabAtt1 ∧
    tabAtt1.attached = true ∧ tabAtt1.orig_win_details.isSome = true :=
  ⟨by decide, rfl,
    attached_implies_saved defaultSettings osOne [] 1 tabAtt1 (by decide) rfl⟩

end VBoxTabs
